import Mathlib

/-!
Verification of the federated-learning client in `FeSEM/Round-2/client.py`.

The Python client is shallowly embedded: numeric values that may be NaN or
infinite are modelled by the inductive type `Val`, ordinary real arithmetic by
`ℚ`, label vectors by `List Nat`, and the stateful Flower client
(`FeSEMClient`) by explicit state passing over `ClientState`.  External
effectful collaborators (the SMOTE resampler, the Keras training call, the
gRPC channel) are parameters of the embedded functions, so that the control
flow of the client itself — the part under verification — is modelled exactly.
-/

namespace FeSEM

/-- A numeric scalar as held in a numpy array: either a finite number
(modelled by a rational), NaN, or an infinity. -/
inductive Val where
  | num (q : ℚ)
  | nan
  | inf
deriving DecidableEq, Repr

/-- `np.isnan` on a single scalar. -/
def isNaNv : Val → Bool
  | .nan => true
  | _ => false

/-- `np.isinf` on a single scalar. -/
def isInfv : Val → Bool
  | .inf => true
  | _ => false

/-- A weight set: the ordered list of weight arrays returned by
`model.get_weights()`; each array is flattened to a list of scalars. -/
def Weights : Type := List (List Val)

instance : DecidableEq Weights := by unfold Weights; infer_instance

/-- `any(np.any(np.isnan(w)) for w in weights)` — the NaN scan used by
`get_parameters` (client.py line 115). -/
def weightsHaveNaN (ws : Weights) : Bool :=
  ws.any (fun w => w.any isNaNv)

/-- Whether some scalar of the weight set is infinite (NOT checked anywhere
in the client code; defined to state what the code does not do). -/
def weightsHaveInf (ws : Weights) : Bool :=
  ws.any (fun w => w.any isInfv)

/-! ### Class weighting (client.py lines 142–153, duplicated at 203–213)

`np.unique(self.y_labeled, return_counts=True)` yields the distinct labels
with their occurrence counts; the code falls back to uniform weights
`{i: 1.0 for i in range(6)}` when there are no labels (the `any(c == 0)`
guard can never fire for labels produced by `np.unique`). -/

/-- Number of occurrences of label `c` in the label vector `y`
(the count paired with `c` by `np.unique(y, return_counts=True)`). -/
def countLabel (y : List Nat) (c : Nat) : Nat :=
  (y.filter (fun l => l = c)).length

/-- The distinct labels of `y` (`np.unique(y)` up to ordering, which the
client only uses as a keyed mapping). -/
def uniqueLabels (y : List Nat) : List Nat := y.dedup

/-- `class_weights` from `fit` (client.py lines 144–150): uniform weight 1.0
over the 6-class label space when the distribution is degenerate, otherwise
`total_samples / (num_classes * count)` per present class. -/
def class_weights (y : List Nat) : Nat → ℚ :=
  if y = [] then fun _ => 1
  else fun c => (y.length : ℚ) / (((uniqueLabels y).length : ℚ) * (countLabel y c : ℚ))

/-- `sample_weights = np.array([class_weights[label] for label in self.y_labeled])`
(client.py line 153). -/
def sample_weights (y : List Nat) : List ℚ :=
  y.map (class_weights y)

/-- `sum over present classes of weight(c) * count(c)` — the quantity the
spec's ClassWeighter identity is about. -/
def weightedClassSum (y : List Nat) : ℚ :=
  ((uniqueLabels y).map (fun c => class_weights y c * (countLabel y c : ℚ))).sum

/-! ### Class balancing with SMOTE (client.py lines 53–75)

`balance_data_with_smote` computes the class distribution, skips balancing
when the smallest class has fewer than 2 samples, otherwise calls the
external SMOTE resampler with `k_neighbors = min(3, min_samples - 1)` and
falls back to the original data if the resampler raises.  The resampler is
an external library, so it is a parameter (`smote`) of the embedding; when
`y` is empty, `class_dist.min()` is NaN and `NaN < 2` is false in Python, so
the code also proceeds to the try-block (with `k_neighbors = 3`, since
`min(3, nan - 1)` returns its first argument). -/

/-- A dataset: feature matrix `X` paired with the label vector `y`. -/
structure Dataset where
  X : List (List ℚ)
  y : List Nat
deriving DecidableEq, Repr

/-- `pd.Series(y).value_counts().min()`: the smallest class count, or `none`
when no class is present. -/
def minClassCount (y : List Nat) : Option Nat :=
  ((uniqueLabels y).map (countLabel y)).min?

/-- `balance_data_with_smote`, parametric in the external SMOTE resampler
`smote k_neighbors dataset` (which either returns a resampled dataset or
raises). -/
def balance_data_with_smote (smote : Nat → Dataset → Except String Dataset)
    (d : Dataset) : Dataset :=
  match minClassCount d.y with
  | none =>
      match smote 3 d with
      | .ok r => r
      | .error _ => d
  | some minSamples =>
      if minSamples < 2 then d
      else
        match smote (min 3 (minSamples - 1)) d with
        | .ok r => r
        | .error _ => d

/-! ### Parameter paths (client.py lines 111–119, 134–140, 195–201)

`get_parameters` scans the local weights for NaN (only NaN — `np.isinf` is
never consulted there) and raises a `ValueError` when one is found.  `fit`
and `evaluate` convert the received global parameters and hand them straight
to `model.set_weights`, which validates shapes only: no NaN/Inf scan happens
on the receiving side. -/

/-- `get_parameters` (client.py lines 111–119): raise on NaN, else return
the weights. -/
def get_parameters (ws : Weights) : Except String Weights :=
  if weightsHaveNaN ws then .error "Model weights contain NaN values."
  else .ok ws

/-- `model.set_weights(global_weights)`: Keras validates that the arriving
arrays match the model's array shapes (here: flattened lengths) and raises a
`ValueError` otherwise; values themselves are not inspected. -/
def set_weights (modelShape : List Nat) (ws : Weights) : Except String Unit :=
  if ws.map List.length = modelShape then .ok ()
  else .error "shape mismatch"

/-- The parameter-receiving prefix of `fit` (client.py lines 134–140):
decode to ndarrays and `set_weights`; any `ValueError` is re-raised and no
NaN/Inf integrity check is performed. -/
def fitReceiveWeights (modelShape : List Nat) (ws : Weights) : Except String Unit :=
  set_weights modelShape ws

/-- The parameter-receiving prefix of `evaluate` (client.py lines 195–201),
identical to that of `fit`. -/
def evaluateReceiveWeights (modelShape : List Nat) (ws : Weights) : Except String Unit :=
  set_weights modelShape ws

/-! ### Learning-rate schedule (client.py lines 46–51) -/

/-- `lr_schedule`: `initial_lr * (1.0 / (1.0 + decay * epoch))` with
`initial_lr = 0.001`, `decay = 0.1`. -/
def lr_schedule (epoch : ℕ) : ℚ :=
  (1 / 1000) * (1 / (1 + (1 / 10) * (epoch : ℚ)))

/-! ### Fit's failure policy on the training history (client.py lines 172–181)

`history.history` is a Keras mapping from metric name to the per-epoch value
list; it is modelled as an association list.  Line 172 checks
`not history.history or 'loss' not in history.history` (both cases collapse
to a failed lookup), line 176 scans the loss list for NaN, and line 181
reads `history.history['loss'][-1]`, which raises an `IndexError` when the
loss list is present but empty. -/

/-- `'loss' in history.history` / `history.history['loss']` as one lookup
(`none` also covers the empty mapping of `not history.history`). -/
def lookupMetric (hist : List (String × List Val)) (key : String) : Option (List Val) :=
  (hist.find? (fun kv => kv.1 = key)).map Prod.snd

/-- The tail of `fit` after training (client.py lines 172–181): `ws` is
`model.get_weights()` after the training call, `n` is `len(self.X_labeled)`,
`hist` is `history.history`.  Returns the triple `fit` returns, or an error
when the code raises. -/
def fitTail (ws : Weights) (n : ℕ) (hist : List (String × List Val)) :
    Except String (Weights × ℕ × Val) :=
  match lookupMetric hist "loss" with
  | none => .ok (ws, n, .num 0)
  | some losses =>
      if losses.any isNaNv then .ok (ws, n, .num 0)
      else
        match losses.getLast? with
        | none => .error "IndexError: list index out of range"
        | some v => .ok (ws, n, v)

/-! ### Client state: round counter and metrics history
(client.py lines 101–109, 121–124, 183–258)

`FeSEMClient.__init__` sets `self.round = 0` and the three empty metric
series; `fit` increments `self.round` first thing; `evaluate` reads the
round but never writes it, and appends one `(round, value)` pair to each of
the three series only on its success path.  The numeric outcome of the
external Keras evaluation (`model.evaluate` / `model.predict` / `f1_score`)
is a parameter `comp`: an error value models any exception caught by the
`except` clause at line 247. -/

/-- `self.metrics_history` (client.py lines 105–109). -/
structure MetricsHistory where
  loss : List (ℕ × ℚ)
  accuracy : List (ℕ × ℚ)
  f1_score : List (ℕ × ℚ)
deriving DecidableEq, Repr

/-- The mutable state of a `FeSEMClient` instance. -/
structure ClientState where
  round : ℕ
  metrics : MetricsHistory
deriving DecidableEq, Repr

/-- The state set up by `FeSEMClient.__init__`. -/
def initState : ClientState :=
  { round := 0, metrics := { loss := [], accuracy := [], f1_score := [] } }

/-- The value `evaluate` returns: `(loss, num_examples, {accuracy, f1_score})`. -/
structure EvalReturn where
  loss : ℚ
  numExamples : ℕ
  accuracy : ℚ
  f1_score : ℚ
deriving DecidableEq, Repr

/-- The zero-metrics fallback `0.0, 0, {"accuracy": 0.0, "f1_score": 0.0}`
(client.py lines 224 and 249). -/
def zeroMetrics : EvalReturn :=
  { loss := 0, numExamples := 0, accuracy := 0, f1_score := 0 }

/-- `evaluate` as a state transition (client.py lines 222–258): `nSamples`
is `len(self.X_labeled)` (= `len(self.y_labeled)`), `comp` the outcome
`(loss, weighted_acc, f1)` of the guarded evaluation block.  Empty data or
a raised exception take the fallback return without touching the state;
success appends one pair to each metric series. -/
def evaluateStep (s : ClientState) (nSamples : ℕ)
    (comp : Except String (ℚ × ℚ × ℚ)) : ClientState × EvalReturn :=
  if nSamples = 0 then (s, zeroMetrics)
  else
    match comp with
    | .error _ => (s, zeroMetrics)
    | .ok (l, a, f) =>
        ({ s with
            metrics :=
              { loss := s.metrics.loss ++ [(s.round, l)],
                accuracy := s.metrics.accuracy ++ [(s.round, a)],
                f1_score := s.metrics.f1_score ++ [(s.round, f)] } },
         { loss := l, numExamples := nSamples, accuracy := a, f1_score := f })

/-- The state effect of `fit` (client.py line 123): `self.round += 1`; the
metrics history is not touched anywhere in `fit`. -/
def fitStep (s : ClientState) : ClientState :=
  { s with round := s.round + 1 }

/-- `get_parameters` as a state transition: it only reads the model weights
(client.py lines 111–119) and leaves the client state untouched. -/
def getParametersStep (s : ClientState) (ws : Weights) :
    ClientState × Except String Weights :=
  (s, get_parameters ws)

/-- One coordinator-driven operation on the client. -/
inductive Op where
  | fit
  | eval (nSamples : ℕ) (comp : Except String (ℚ × ℚ × ℚ))

/-- Apply one operation to the client state. -/
def applyOp (s : ClientState) : Op → ClientState
  | .fit => fitStep s
  | .eval n c => (evaluateStep s n c).1

/-- Run a sequence of coordinator operations from a starting state. -/
def runOps (s : ClientState) (ops : List Op) : ClientState :=
  ops.foldl applyOp s

/-- The three metric series have equal lengths. -/
def balancedLengths (m : MetricsHistory) : Prop :=
  m.loss.length = m.accuracy.length ∧ m.accuracy.length = m.f1_score.length

instance (m : MetricsHistory) : Decidable (balancedLengths m) := by
  unfold balancedLengths; infer_instance

/-! ### Client lifecycle (client.py lines 77–98, 262–284)

`run_client` balances the dataset with SMOTE once, at start-up, before the
client object even exists; the coordinator then drives `fit`/`evaluate`
calls.  The connection loop makes up to `max_retries = 10` attempts with
`time.sleep(retry_delay)` (10 seconds) between consecutive attempts, and
re-raises the failure after the last one. -/

/-- Observable lifecycle events of `run_client`. -/
inductive LEvent where
  | smoteRun
  | fitCall (round : ℕ)
  | evalCall
deriving DecidableEq, Repr

/-- Whether a lifecycle event is a `fit` invocation. -/
def isFitCall : LEvent → Bool
  | .fitCall _ => true
  | _ => false

/-- The events emitted while the coordinator drives the client: each `fit`
increments the round and emits its call event; neither handler ever runs
SMOTE. -/
def roundEvents : ℕ → List Op → List LEvent
  | _, [] => []
  | r, .fit :: rest => .fitCall (r + 1) :: roundEvents (r + 1) rest
  | r, .eval _ _ :: rest => .evalCall :: roundEvents r rest

/-- The lifecycle trace of `run_client` (client.py line 84 onwards): SMOTE
balancing happens exactly once, before any round. -/
def run_client_trace (calls : List Op) : List LEvent :=
  .smoteRun :: roundEvents 0 calls

/-- Events of the connection-retry loop (client.py lines 262–284). -/
inductive REvent where
  | attempt (n : ℕ)
  | sleep (d : ℕ)
  | success
  | raised
deriving DecidableEq, Repr

/-- Whether a retry event is a connection attempt. -/
def isAttempt : REvent → Bool
  | .attempt _ => true
  | _ => false

/-- The body of `for attempt in range(max_retries)` (client.py lines
264–284): try to connect (`ready a` decides whether attempt `a` succeeds);
on failure sleep `retryDelay` and continue unless this was the final
attempt, in which case the exception is re-raised. -/
def retryGo (ready : ℕ → Bool) (maxRetries retryDelay : ℕ) :
    ℕ → ℕ → List REvent
  | 0, _ => []
  | fuel + 1, a =>
      .attempt a ::
        (if ready a then [.success]
         else if a + 1 < maxRetries then
           .sleep retryDelay :: retryGo ready maxRetries retryDelay fuel (a + 1)
         else [.raised])

/-- The full trace of the connection loop. -/
def retryTrace (ready : ℕ → Bool) (maxRetries retryDelay : ℕ) : List REvent :=
  retryGo ready maxRetries retryDelay maxRetries 0

/-! ## Theorems -/

/-- C4: the learning-rate schedule satisfies `lr(0) = 0.001`,
`lr(e) = 0.001 / (1 + 0.1 * e)` for every epoch index `e ≥ 0`, and `lr` is
strictly decreasing in `e`. -/
theorem c4_lr_schedule :
    lr_schedule 0 = 1 / 1000 ∧
    (∀ e : ℕ, lr_schedule e = (1 / 1000) / (1 + (1 / 10) * (e : ℚ))) ∧
    StrictAnti lr_schedule := by
  refine ⟨by norm_num [lr_schedule], fun e => by rw [lr_schedule, mul_one_div], ?_⟩
  intro a b hab
  have h1 : (0 : ℚ) < 1 + (1 / 10) * (a : ℚ) := by positivity
  have h2 : (1 : ℚ) + (1 / 10) * (a : ℚ) < 1 + (1 / 10) * (b : ℚ) := by
    have : (a : ℚ) < (b : ℚ) := by exact_mod_cast hab
    linarith
  have h3 := div_lt_div_of_pos_left one_pos h1 h2
  unfold lr_schedule
  exact mul_lt_mul_of_pos_left h3 (by norm_num)

/-- Witness for C4 at concrete epochs. -/
theorem c4_lr_schedule_witness : lr_schedule 2 < lr_schedule 1 :=
  c4_lr_schedule.2.2 (by decide)

/-- C2: when some class has fewer than 2 samples, `balance_data_with_smote`
returns the input dataset unchanged, and it also returns the input unchanged
whenever the SMOTE synthesis itself raises. -/
theorem c2_balance_unchanged (smote : Nat → Dataset → Except String Dataset)
    (d : Dataset) :
    ((∃ m, minClassCount d.y = some m ∧ m < 2) →
        balance_data_with_smote smote d = d) ∧
    ((∀ k, ∃ e, smote k d = Except.error e) →
        balance_data_with_smote smote d = d) := by
  constructor
  · rintro ⟨m, hm, hlt⟩
    unfold balance_data_with_smote
    rw [hm]
    simp [hlt]
  · intro h
    unfold balance_data_with_smote
    cases hmc : minClassCount d.y with
    | none =>
        obtain ⟨e, he⟩ := h 3
        rw [he]
    | some m =>
        by_cases hlt : m < 2
        · simp [hlt]
        · obtain ⟨e, he⟩ := h (min 3 (m - 1))
          simp [hlt, he]

/-- Witness for C2: a dataset whose smallest class count is 1 is returned
unchanged, and a SMOTE oracle that always raises leaves it unchanged too. -/
theorem c2_balance_unchanged_witness :
    balance_data_with_smote (fun _ _ => Except.error "fail")
        { X := [[1], [2], [3]], y := [0, 0, 1] } =
      { X := [[1], [2], [3]], y := [0, 0, 1] } ∧
    balance_data_with_smote (fun _ _ => Except.error "fail")
        { X := [[1], [2]], y := [0, 1] } =
      { X := [[1], [2]], y := [0, 1] } :=
  ⟨(c2_balance_unchanged _ _).1 ⟨1, by decide, by decide⟩,
   (c2_balance_unchanged _ _).2 (fun _ => ⟨"fail", rfl⟩)⟩

/-- C3 counterexample: a weight set holding an infinity passes
`get_parameters` without error, and a NaN weight set of the right shape is
accepted by `fit`'s and `evaluate`'s receiving path with no integrity
error — the claimed NaN/Inf check does not run in every place. -/
theorem c3_no_bidirectional_check :
    get_parameters [[Val.inf]] = Except.ok [[Val.inf]] ∧
    fitReceiveWeights [1] [[Val.nan]] = Except.ok () ∧
    evaluateReceiveWeights [1] [[Val.nan]] = Except.ok () := by
  refine ⟨rfl, rfl, rfl⟩

/-- C3 amended: the integrity check runs only in `get_parameters` and
detects only NaN — `get_parameters` raises exactly when some weight is NaN,
while `fit` and `evaluate` accept any shape-conforming weight set without a
NaN/Inf check. -/
theorem c3_nan_check_only_get_parameters (ws : Weights) (modelShape : List Nat)
    (hshape : ws.map List.length = modelShape) :
    (get_parameters ws = Except.error "Model weights contain NaN values." ↔
        weightsHaveNaN ws = true) ∧
    fitReceiveWeights modelShape ws = Except.ok () ∧
    evaluateReceiveWeights modelShape ws = Except.ok () := by
  refine ⟨?_, ?_, ?_⟩
  · unfold get_parameters
    by_cases h : weightsHaveNaN ws <;> simp [h]
  · unfold fitReceiveWeights set_weights
    simp [hshape]
  · unfold evaluateReceiveWeights set_weights
    simp [hshape]

/-- A label occurring in `y` has a positive count. -/
lemma countLabel_pos {y : List Nat} {c : Nat} (h : c ∈ y) : 0 < countLabel y c := by
  unfold countLabel
  have hmem : c ∈ y.filter (fun l => l = c) := by
    rw [List.mem_filter]
    exact ⟨h, by simp⟩
  exact List.length_pos.mpr (List.ne_nil_of_mem hmem)

/-- C1 counterexample: for labels `[0, 1]` (total 2 samples, 2 classes, each
count 1, so every weight is 1), the sum of `weight(c) * count(c)` over the
present classes is 2, not `totalSamples * numClasses = 4`. -/
theorem c1_sum_identity_fails :
    weightedClassSum [0, 1] ≠
      (([0, 1] : List Nat).length : ℚ) * ((uniqueLabels [0, 1]).length : ℚ) := by
  have hu : uniqueLabels [0, 1] = [0, 1] := by decide
  have hc0 : countLabel [0, 1] 0 = 1 := by decide
  have hc1 : countLabel [0, 1] 1 = 1 := by decide
  simp only [weightedClassSum, hu, List.map_cons, List.map_nil, List.sum_cons, List.sum_nil,
    class_weights, if_neg (show ¬([0, 1] : List Nat) = [] by decide), hc0, hc1]
  norm_num

/-- C1 amended: for a nonempty label vector (a non-degenerate distribution —
every present class has a nonzero count by construction), all per-sample
weights are strictly positive and the sum over present classes of
`weight(c) * count(c)` equals `totalSamples` (not `totalSamples * numClasses`). -/
theorem c1_sample_weights (y : List Nat) (h : y ≠ []) :
    (∀ w ∈ sample_weights y, 0 < w) ∧
    weightedClassSum y = (y.length : ℚ) := by
  have hlen : (0 : ℚ) < (y.length : ℚ) := by
    exact_mod_cast List.length_pos.mpr h
  have hdne : uniqueLabels y ≠ [] := by
    obtain ⟨c, hc⟩ := List.exists_mem_of_ne_nil y h
    exact List.ne_nil_of_mem (List.mem_dedup.mpr hc)
  have hn : (0 : ℚ) < ((uniqueLabels y).length : ℚ) := by
    exact_mod_cast List.length_pos.mpr hdne
  constructor
  · intro w hw
    rw [sample_weights, List.mem_map] at hw
    obtain ⟨c, hc, rfl⟩ := hw
    simp only [class_weights, if_neg h]
    have hcnt : (0 : ℚ) < (countLabel y c : ℚ) := by
      exact_mod_cast countLabel_pos hc
    exact div_pos hlen (mul_pos hn hcnt)
  · have hterm : ∀ c ∈ uniqueLabels y,
        class_weights y c * (countLabel y c : ℚ) =
          (y.length : ℚ) / ((uniqueLabels y).length : ℚ) := by
      intro c hc
      have hcy : c ∈ y := List.mem_dedup.mp hc
      have hcnt : (countLabel y c : ℚ) ≠ 0 := by
        exact_mod_cast (countLabel_pos hcy).ne'
      simp only [class_weights, if_neg h]
      field_simp
      ring
    unfold weightedClassSum
    rw [List.map_congr_left hterm, List.map_const', List.sum_replicate,
      nsmul_eq_mul, mul_comm, div_mul_cancel₀ _ hn.ne']

/-- Witness for the C1 amended theorem on the labels `[0, 0, 1]`. -/
theorem c1_sample_weights_witness :
    (∀ w ∈ sample_weights [0, 0, 1], 0 < w) ∧
    weightedClassSum [0, 0, 1] = (([0, 0, 1] : List Nat).length : ℚ) :=
  c1_sample_weights [0, 0, 1] (by decide)

/-- Witness for the C3 amended theorem at a concrete NaN weight set. -/
theorem c3_nan_check_only_get_parameters_witness :
    (get_parameters [[Val.nan]] = Except.error "Model weights contain NaN values." ↔
        weightsHaveNaN [[Val.nan]] = true) ∧
    fitReceiveWeights [1] [[Val.nan]] = Except.ok () ∧
    evaluateReceiveWeights [1] [[Val.nan]] = Except.ok () :=
  c3_nan_check_only_get_parameters [[Val.nan]] [1] (by decide)

/-- C5: against a channel that never becomes ready, the connection loop
makes exactly 10 attempts, with a 10-unit sleep separating each consecutive
pair of attempts, and ends by re-raising the failure after the 10th attempt
instead of retrying. -/
theorem c5_retry_exhaustion (ready : ℕ → Bool) (h : ∀ n, ready n = false) :
    retryTrace ready 10 10 =
      [.attempt 0, .sleep 10, .attempt 1, .sleep 10, .attempt 2, .sleep 10,
       .attempt 3, .sleep 10, .attempt 4, .sleep 10, .attempt 5, .sleep 10,
       .attempt 6, .sleep 10, .attempt 7, .sleep 10, .attempt 8, .sleep 10,
       .attempt 9, .raised] ∧
    ((retryTrace ready 10 10).filter isAttempt).length = 10 ∧
    (retryTrace ready 10 10).getLast? = some .raised := by
  have hready : ready = fun _ => false := funext h
  subst hready
  exact ⟨by decide, by decide, by decide⟩

/-- Witness for C5 at the concrete never-ready channel. -/
theorem c5_retry_exhaustion_witness :
    ((retryTrace (fun _ => false) 10 10).filter isAttempt).length = 10 ∧
    (retryTrace (fun _ => false) 10 10).getLast? = some .raised :=
  ⟨(c5_retry_exhaustion (fun _ => false) (fun _ => rfl)).2.1,
   (c5_retry_exhaustion (fun _ => false) (fun _ => rfl)).2.2⟩

/-- When the dataset is empty or the guarded evaluation block raises,
`evaluate` leaves the client state untouched. -/
lemma evaluateStep_fallback_state (s : ClientState) (nSamples : ℕ)
    (comp : Except String (ℚ × ℚ × ℚ))
    (h : nSamples = 0 ∨ ∃ e, comp = Except.error e) :
    (evaluateStep s nSamples comp).1 = s := by
  rcases h with h | ⟨e, rfl⟩
  · simp [evaluateStep, h]
  · unfold evaluateStep
    by_cases hn : nSamples = 0 <;> simp [hn]

/-- C6: an empty dataset, or any exception in the guarded evaluation block,
makes `evaluate` return exactly the zero-metrics fallback
`(0.0, 0, {accuracy: 0.0, f1_score: 0.0})` instead of propagating. -/
theorem c6_evaluate_zero_fallback (s : ClientState) (nSamples : ℕ)
    (comp : Except String (ℚ × ℚ × ℚ))
    (h : nSamples = 0 ∨ ∃ e, comp = Except.error e) :
    (evaluateStep s nSamples comp).2 = zeroMetrics := by
  rcases h with h | ⟨e, rfl⟩
  · simp [evaluateStep, h]
  · unfold evaluateStep
    by_cases hn : nSamples = 0 <;> simp [hn]

/-- Witness for C6: the empty dataset and the raising evaluation both yield
the zero-metrics fallback. -/
theorem c6_evaluate_zero_fallback_witness :
    (evaluateStep initState 0 (Except.ok (1, 1, 1))).2 = zeroMetrics ∧
    (evaluateStep initState 3 (Except.error "boom")).2 = zeroMetrics :=
  ⟨c6_evaluate_zero_fallback _ _ _ (Or.inl rfl),
   c6_evaluate_zero_fallback _ _ _ (Or.inr ⟨_, rfl⟩)⟩

/-- C7 counterexample: a training history whose loss series is present but
empty slips past both guards of `fit` and the final `[-1]` indexing raises,
instead of returning the soft-failure triple. -/
theorem c7_empty_loss_series_raises :
    fitTail [[Val.num 1]] 3 [("loss", [])] =
      Except.error "IndexError: list index out of range" := by
  rfl

/-- C7 amended: when the history mapping is empty or lacks the loss series,
or when the loss series contains a NaN, `fit` returns the model's current
weights, the sample count and a loss of exactly 0.0 without raising; only a
present-but-empty loss series escapes both guards (and then the final
indexing raises, as the counterexample shows). -/
theorem c7_fit_soft_failure (ws : Weights) (n : ℕ)
    (hist : List (String × List Val))
    (h : lookupMetric hist "loss" = none ∨
         ∃ ls, lookupMetric hist "loss" = some ls ∧ ls.any isNaNv = true) :
    fitTail ws n hist = Except.ok (ws, n, Val.num 0) := by
  rcases h with h | ⟨ls, hls, hnan⟩
  · unfold fitTail
    rw [h]
  · unfold fitTail
    rw [hls]
    simp [hnan]

/-- Witness for the C7 amended theorem: missing loss key and NaN loss both
give the soft-failure triple. -/
theorem c7_fit_soft_failure_witness :
    fitTail [[Val.num 1]] 3 [] = Except.ok ([[Val.num 1]], 3, Val.num 0) ∧
    fitTail [[Val.num 1]] 3 [("loss", [Val.num 2, Val.nan])] =
      Except.ok ([[Val.num 1]], 3, Val.num 0) :=
  ⟨c7_fit_soft_failure _ _ _ (Or.inl rfl),
   c7_fit_soft_failure _ _ _ (Or.inr ⟨[Val.num 2, Val.nan], rfl, rfl⟩)⟩

/-- `evaluate` never writes the round counter. -/
lemma evaluateStep_round (s : ClientState) (nSamples : ℕ)
    (comp : Except String (ℚ × ℚ × ℚ)) :
    (evaluateStep s nSamples comp).1.round = s.round := by
  unfold evaluateStep
  by_cases hn : nSamples = 0
  · simp [hn]
  · rcases comp with e | ⟨l, a, f⟩ <;> simp [hn]

/-- C8: the round counter starts at 0, is incremented by exactly 1 at the
start of every `fit`, is never decreased by any coordinator-driven
operation, and is not mutated by `get_parameters` or by `evaluate`. -/
theorem c8_round_counter (s : ClientState) (ws : Weights) :
    initState.round = 0 ∧
    (fitStep s).round = s.round + 1 ∧
    (∀ nSamples comp, (evaluateStep s nSamples comp).1.round = s.round) ∧
    (getParametersStep s ws).1 = s ∧
    (∀ op, s.round ≤ (applyOp s op).round) := by
  refine ⟨rfl, rfl, fun n comp => evaluateStep_round s n comp, rfl, ?_⟩
  intro op
  cases op with
  | fit => exact Nat.le_succ _
  | eval n comp => exact le_of_eq (evaluateStep_round s n comp).symm

/-- C9 counterexample: in a client lifetime with zero `fit` invocations the
lifecycle trace still contains the SMOTE run — balancing happens at client
start-up, not inside the first `onFit` call. -/
theorem c9_smote_before_first_fit :
    run_client_trace [] = [LEvent.smoteRun] ∧
    (run_client_trace []).filter isFitCall = [] := by
  exact ⟨rfl, rfl⟩

/-- The coordinator-driven handlers never run SMOTE. -/
lemma roundEvents_count_smote (calls : List Op) (r : ℕ) :
    (roundEvents r calls).count LEvent.smoteRun = 0 := by
  induction calls generalizing r with
  | nil => rfl
  | cons op rest ih =>
      cases op <;> simp [roundEvents, List.count_cons, ih]

/-- C9 amended: SMOTE balancing runs exactly once per client lifetime, at
client start-up before any round; it never runs during any `fit` or
`evaluate` invocation, and the balanced dataset is what every round then
uses. -/
theorem c9_smote_once_at_startup (calls : List Op) :
    (run_client_trace calls).head? = some LEvent.smoteRun ∧
    (roundEvents 0 calls).count LEvent.smoteRun = 0 ∧
    (run_client_trace calls).count LEvent.smoteRun = 1 := by
  refine ⟨rfl, roundEvents_count_smote calls 0, ?_⟩
  unfold run_client_trace
  rw [List.count_cons_self, roundEvents_count_smote calls 0]

/-- A successful evaluation appends one `(round, value)` pair to each of the
three metric series. -/
lemma evaluateStep_ok_metrics (s : ClientState) (nSamples : ℕ) (l a f : ℚ)
    (hn : nSamples ≠ 0) :
    (evaluateStep s nSamples (Except.ok (l, a, f))).1.metrics =
      { loss := s.metrics.loss ++ [(s.round, l)],
        accuracy := s.metrics.accuracy ++ [(s.round, a)],
        f1_score := s.metrics.f1_score ++ [(s.round, f)] } := by
  simp [evaluateStep, hn]

/-- Every coordinator-driven operation preserves equality of the three
metric-series lengths. -/
lemma applyOp_balanced (s : ClientState) (op : Op)
    (h : balancedLengths s.metrics) : balancedLengths (applyOp s op).metrics := by
  cases op with
  | fit => exact h
  | eval n comp =>
      by_cases hn : n = 0
      · rw [applyOp, evaluateStep_fallback_state s n comp (Or.inl hn)]
        exact h
      · rcases comp with e | ⟨l, a, f⟩
        · rw [applyOp, evaluateStep_fallback_state s n _ (Or.inr ⟨e, rfl⟩)]
          exact h
        · rw [applyOp, evaluateStep_ok_metrics s n l a f hn]
          unfold balancedLengths at h ⊢
          simp [h.1, h.2]

/-- Any run from a state with balanced metric series ends balanced. -/
lemma runOps_balanced (ops : List Op) (s : ClientState)
    (h : balancedLengths s.metrics) : balancedLengths (runOps s ops).metrics := by
  induction ops generalizing s with
  | nil => exact h
  | cons op rest ih => exact ih (applyOp s op) (applyOp_balanced s op h)

/-- C10: the three metric series stay at equal lengths along every sequence
of coordinator operations; a successful evaluation appends exactly one
`(round, value)` pair to each series, and every fallback return path leaves
the metrics history (indeed the whole client state) unchanged. -/
theorem c10_metrics_history (ops : List Op) :
    balancedLengths (runOps initState ops).metrics ∧
    (∀ s nSamples l a f, nSamples ≠ 0 →
        (evaluateStep s nSamples (Except.ok (l, a, f))).1.metrics =
          { loss := s.metrics.loss ++ [(s.round, l)],
            accuracy := s.metrics.accuracy ++ [(s.round, a)],
            f1_score := s.metrics.f1_score ++ [(s.round, f)] }) ∧
    (∀ s nSamples comp, (nSamples = 0 ∨ ∃ e, comp = Except.error e) →
        (evaluateStep s nSamples comp).1 = s) := by
  refine ⟨runOps_balanced ops initState ⟨rfl, rfl⟩, ?_, ?_⟩
  · intro s n l a f hn
    exact evaluateStep_ok_metrics s n l a f hn
  · intro s n comp h
    exact evaluateStep_fallback_state s n comp h

/-- Witness for C10 on a concrete operation sequence and concrete
evaluation outcomes. -/
theorem c10_metrics_history_witness :
    balancedLengths (runOps initState [Op.fit, Op.eval 2 (Except.ok (1, 2, 3))]).metrics ∧
    (evaluateStep initState 2 (Except.ok (1, 2, 3))).1.metrics =
      { loss := [] ++ [(0, 1)], accuracy := [] ++ [(0, 2)], f1_score := [] ++ [(0, 3)] } ∧
    (evaluateStep initState 0 (Except.ok (1, 2, 3))).1 = initState :=
  ⟨(c10_metrics_history [Op.fit, Op.eval 2 (Except.ok (1, 2, 3))]).1,
   (c10_metrics_history []).2.1 initState 2 1 2 3 (by decide),
   (c10_metrics_history []).2.2 initState 0 (Except.ok (1, 2, 3)) (Or.inl rfl)⟩

end FeSEM
